import Mathlib

/-!
Shallow embedding of the imapsrv protocol core: the IMAP lexer
(src/lexer.go) and the session state machine (src/session.go).

The Go lexer owns a `bufio.Reader` plus a one-byte lookahead `current`;
every failure (malformed input or a failed read, end of input included)
is signalled by panicking with a parse error.  The embedding models the
reader as the list of not-yet-read bytes, the lookahead as a `Nat`, and
every panic as `none`: a lexing function returns
`Option (token × Nat × List Nat)` — the token, the new lookahead byte
and the remaining input — with `none` for a parse error.
-/

namespace Imapsrv

/-! ### Tokens (src/lexer.go lines 15-32) -/

inductive tokenType where
  | stringTokenType
  | eolTokenType
  | invalidTokenType
  deriving DecidableEq

structure token where
  value : List Nat
  tokType : tokenType
  deriving DecidableEq

def invalidToken : token := ⟨[], tokenType.invalidTokenType⟩

def eolToken : token := ⟨[], tokenType.eolTokenType⟩

/-! ### Ascii codes (src/lexer.go lines 34-52) -/

def endOfInput : Nat := 0x00
def cr : Nat := 0x0d
def lf : Nat := 0x0a
def space : Nat := 0x20
def doubleQuote : Nat := 0x22
def plus : Nat := 0x2b
def zero : Nat := 0x30
def nine : Nat := 0x39
def leftCurly : Nat := 0x7b
def rightCurly : Nat := 0x7d
def leftParenthesis : Nat := 0x28
def rightParenthesis : Nat := 0x29
def rightBracket : Nat := 0x5d
def percent : Nat := 0x25
def asterisk : Nat := 0x2a
def backslash : Nat := 0x5c

/-- Chars not present in the astring charset (src/lexer.go lines 54-64). -/
def astringExceptionsChar : List Nat :=
  [space, leftParenthesis, rightParenthesis, rightBracket, percent,
   asterisk, backslash, leftCurly]

/-- Chars not present in the tag charset (src/lexer.go lines 66-77). -/
def tagExceptionsChar : List Nat :=
  [space, leftParenthesis, rightParenthesis, rightBracket, percent,
   asterisk, backslash, leftCurly, plus]

/-- Chars not present in the list-mailbox charset (src/lexer.go lines 79-87). -/
def listMailboxExceptionsChar : List Nat :=
  [space, leftParenthesis, rightParenthesis, rightBracket, backslash,
   leftCurly]

/-- Flags that indicate how to lex unquoted strings (src/lexer.go lines 89-95). -/
inductive unquotedLexerFlag where
  | asAString
  | asTag
  | asListMailbox
  | asAny
  deriving DecidableEq

/-- The exception set the lexer's `next` dispatches to for each flag:
`any` passes a nil slice, the others their static sets
(src/lexer.go lines 123-134 and 206-224). -/
def exceptionsOf : unquotedLexerFlag → List Nat
  | .asAString => astringExceptionsChar
  | .asTag => tagExceptionsChar
  | .asListMailbox => listMailboxExceptionsChar
  | .asAny => []

/-- Bytes of an ASCII string literal, for readable concrete inputs. -/
def str2bytes (s : String) : List Nat := s.data.map Char.toNat

/-! ### The lexing functions (src/lexer.go lines 100-272)

Each Go method reads via `l.consume()`, which panics (parse error) when
the underlying read fails; here that is the `none` of a `match` on an
empty remaining-input list. -/

/-- Move forward 1 byte (src/lexer.go lines 263-272): the new lookahead
byte and the rest of the input, or a parse error at end of input. -/
def consume : List Nat → Option (Nat × List Nat)
  | [] => none
  | b :: rest => some (b, rest)

/-- Skip whitespace (src/lexer.go lines 247-252): a single conditional
consume, not a loop. -/
def skipSpace (current : Nat) (rest : List Nat) : Option (Nat × List Nat) :=
  if current = space ∨ current = lf then consume rest
  else some (current, rest)

/-- Consume until end of line (src/lexer.go lines 254-261).  The loop
stops when the lookahead byte IS the linefeed: the linefeed itself is
left as the lookahead, not consumed past. -/
def consumeEol : Nat → List Nat → Option (Nat × List Nat)
  | current, [] => if current = lf then some (current, []) else none
  | current, b :: rs =>
      if current = lf then some (current, b :: rs) else consumeEol b rs

/-- Read a quoted string (src/lexer.go lines 138-166).  The third
argument is the accumulation buffer, `[]` at the call site in `next`.
A backslash consumes the following byte and appends it unconditionally;
a bare CR or LF is a parse error; the closing quote is consumed and not
included in the value. -/
def qstring : Nat → List Nat → List Nat → Option (token × Nat × List Nat)
  | _, [], _ => none
  | current, b :: rs, buffer =>
      if current = doubleQuote then
        some (⟨buffer, tokenType.stringTokenType⟩, b, rs)
      else if current = cr ∨ current = lf then none
      else if current = backslash then
        match rs with
        | [] => none
        | b2 :: rs2 => qstring b2 rs2 (buffer ++ [b])
      else qstring b rs (buffer ++ [current])

/-- The digit-collecting loop of `literal` (src/lexer.go lines 173-183):
bytes are collected until the right curly is the lookahead; any byte that
is neither a digit nor the right curly is a parse error. -/
def literalDigits : Nat → List Nat → List Nat → Option (List Nat × Nat × List Nat)
  | current, [], acc =>
      if current = rightCurly then some (acc, current, [])
      else none
  | current, b :: rs, acc =>
      if current = rightCurly then some (acc, current, b :: rs)
      else if current < zero ∨ nine < current then none
      else literalDigits b rs (acc ++ [current])

/-- Numeric value of a run of decimal digit bytes. -/
def digitsToNat (ds : List Nat) : Nat :=
  ds.foldl (fun acc d => acc * 10 + (d - zero)) 0

/-- Models `strconv.ParseInt(s, 10, 32)` for the all-digit strings the
literal length loop produces: the empty string is a syntax error and a
value above the int32 maximum is a range error, both returned as `none`. -/
def parseInt32 (ds : List Nat) : Option Nat :=
  if ds = [] then none
  else if digitsToNat ds ≤ 2 ^ 31 - 1 then some (digitsToNat ds)
  else none

/-- The literal body loop (src/lexer.go lines 196-201): while the count
is positive, append the lookahead byte and consume. -/
def readLiteral : Nat → Nat → List Nat → Option (List Nat × Nat × List Nat)
  | 0, current, rest => some ([], current, rest)
  | _ + 1, _, [] => none
  | n + 1, current, b :: rs =>
      match readLiteral n b rs with
      | none => none
      | some (buf, c, r) => some (current :: buf, c, r)

/-- Parse a length tagged literal (src/lexer.go lines 168-204): collect
the digit run, parse it as a 32-bit signed integer, run `consumeEol`,
then read that many bytes starting from the lookahead byte. -/
def literal (current : Nat) (rest : List Nat) : Option (token × Nat × List Nat) :=
  match literalDigits current rest [] with
  | none => none
  | some (ds, c, rs) =>
      match parseInt32 ds with
      | none => none
      | some len =>
          match consumeEol c rs with
          | none => none
          | some (c2, rs2) =>
              match readLiteral len c2 rs2 with
              | none => none
              | some (buf, c3, rs3) =>
                  some (⟨buf, tokenType.stringTokenType⟩, c3, rs3)

/-- A non-quoted string (src/lexer.go lines 226-245).  The fourth
argument is the accumulation buffer, `[]` at the call sites.  Bytes are
accumulated while strictly above space, absent from the exception set
and strictly below 0x7f; an empty accumulation is a parse error. -/
def nonquoted : List Nat → Nat → List Nat → List Nat → Option (token × Nat × List Nat)
  | exceptions, current, [], buffer =>
      if space < current ∧ current ∉ exceptions ∧ current < 0x7f then none
      else if buffer = [] then none
      else some (⟨buffer, tokenType.stringTokenType⟩, current, [])
  | exceptions, current, b :: rs, buffer =>
      if space < current ∧ current ∉ exceptions ∧ current < 0x7f then
        nonquoted exceptions b rs (buffer ++ [current])
      else if buffer = [] then none
      else some (⟨buffer, tokenType.stringTokenType⟩, current, b :: rs)

/-- An astring (src/lexer.go lines 206-209). -/
def astring (current : Nat) (rest : List Nat) : Option (token × Nat × List Nat) :=
  nonquoted astringExceptionsChar current rest []

/-- A tag string (src/lexer.go lines 211-214). -/
def tagString (current : Nat) (rest : List Nat) : Option (token × Nat × List Nat) :=
  nonquoted tagExceptionsChar current rest []

/-- A list mailbox (src/lexer.go lines 216-219). -/
def listMailbox (current : Nat) (rest : List Nat) : Option (token × Nat × List Nat) :=
  nonquoted listMailboxExceptionsChar current rest []

/-- Any unquoted string (src/lexer.go lines 221-224): a nil exception
slice, so only the byte-range bounds terminate the scan. -/
def any (current : Nat) (rest : List Nat) : Option (token × Nat × List Nat) :=
  nonquoted [] current rest []

/-- Get the next token (src/lexer.go lines 106-136): skip whitespace,
then dispatch on the lookahead byte, falling through to the unquoted
scan selected by the flag. -/
def next (flag : unquotedLexerFlag) (current : Nat) (rest : List Nat) :
    Option (token × Nat × List Nat) :=
  match skipSpace current rest with
  | none => none
  | some (c, rs) =>
      if c = cr then
        match consumeEol c rs with
        | none => none
        | some (c2, rs2) => some (eolToken, c2, rs2)
      else if c = doubleQuote then
        match consume rs with
        | none => none
        | some (c2, rs2) => qstring c2 rs2 []
      else if c = leftCurly then
        match consume rs with
        | none => none
        | some (c2, rs2) => literal c2 rs2
      else
        match flag with
        | .asAny => any c rs
        | .asTag => tagString c rs
        | .asListMailbox => listMailbox c rs
        | .asAString => astring c rs

/-- Create an IMAP lexer (src/lexer.go lines 99-104): the first lookahead
byte is faked as a space that the first `next` will skip.  `firstToken`
is the first `next` call on a fresh lexer over the given input. -/
def firstToken (flag : unquotedLexerFlag) (input : List Nat) :
    Option (token × Nat × List Nat) :=
  next flag space input

/-! ### Session state machine (src/session.go) -/

/-- IMAP session states (src/session.go lines 9-16). -/
inductive state where
  | notAuthenticated
  | authenticated
  | selected
  deriving DecidableEq

/-- An IMAP mailbox (src/session.go lines 33-37). -/
structure Mailbox where
  Name : String
  Id : Int
  deriving DecidableEq

/-- The Mailstore capability (src/session.go lines 18-31), modelled as a
record of functions; a Go `(T, error)` return becomes `Except String T`,
and `GetMailbox`'s possibly-nil mailbox pointer an `Option Mailbox`. -/
structure Mailstore where
  GetMailbox : String → Except String (Option Mailbox)
  FirstUnseen : Int → Except String Int
  TotalMessages : Int → Except String Int
  RecentMessages : Int → Except String Int
  NextUid : Int → Except String Int

/-- The part of the IMAP configuration the session code uses: its
Mailstore. -/
structure Config where
  Store : Mailstore

/-- An IMAP session (src/session.go lines 39-49).  The source comment on
the mailbox field reads: the currently selected mailbox (if st ==
selected). -/
structure session where
  id : Int
  st : state
  mailbox : Option Mailbox
  config : Config

/-- Create a new IMAP session (src/session.go lines 51-57): state
notAuthenticated, no mailbox. -/
def createSession (id : Int) (config : Config) : session :=
  { id := id, st := state.notAuthenticated, mailbox := none, config := config }

/-- Select a mailbox (src/session.go lines 67-85).  Go mutates the
receiver and returns `(bool, error)`; here the updated session is
returned alongside the Go results.  On success only the mailbox field is
written. -/
def selectMailbox (s : session) (name : String) : session × Except String Bool :=
  match s.config.Store.GetMailbox name with
  | .error e => (s, .error e)
  | .ok none => (s, .ok false)
  | .ok (some mbox) => ({ s with mailbox := some mbox }, .ok true)

/-- Modelled from the spec: the `response` type is defined in a
repository file not present under src; per spec §3 a response holds a
tag, a message and an ordered sequence of untagged lines. -/
structure response where
  tag : String
  message : String
  untagged : List String
  deriving DecidableEq

/-- Modelled from the spec: `response.extra` (the append operation
`addMailboxInfo` calls, defined outside src) appends one untagged line;
ordering of untagged lines is significant (spec §3, §4.2). -/
def response.extra (r : response) (line : String) : response :=
  { r with untagged := r.untagged ++ [line] }

/-- Models `fmt.Sprint(n, s)` for an int64 operand followed by a string
operand: no space is inserted between adjacent operands when either is a
string. -/
def sprintIntStr (n : Int) (s : String) : String := toString n ++ s

/-- Add mailbox information to the given response (src/session.go lines
87-115).  Go dereferences `s.mailbox` unconditionally, so a session with
no mailbox panics: that is the outer `none`.  Otherwise the four
Mailstore queries run in order, any error returning immediately with the
response untouched, and on success the five untagged lines are appended
in the fixed source order. -/
def addMailboxInfo (s : session) (resp : response) :
    Option (response × Except String Unit) :=
  match s.mailbox with
  | none => none
  | some mbox =>
      match s.config.Store.FirstUnseen mbox.Id with
      | .error e => some (resp, .error e)
      | .ok firstUnseen =>
          match s.config.Store.TotalMessages mbox.Id with
          | .error e => some (resp, .error e)
          | .ok totalMessages =>
              match s.config.Store.RecentMessages mbox.Id with
              | .error e => some (resp, .error e)
              | .ok recentMessages =>
                  match s.config.Store.NextUid mbox.Id with
                  | .error e => some (resp, .error e)
                  | .ok nextUid =>
                      some
                        (((((resp.extra
                          (sprintIntStr totalMessages " EXISTS")).extra
                          (sprintIntStr recentMessages " RECENT")).extra
                          ("OK [UNSEEN " ++ toString firstUnseen ++
                            "] Message " ++ toString firstUnseen ++
                            " is first unseen")).extra
                          ("OK [UIDVALIDITY " ++ toString mbox.Id ++
                            "] UIDs valid")).extra
                          ("OK [UIDNEXT " ++ toString nextUid ++
                            "] Predicted next UID"),
                         .ok ())

/-- Mirrors `TestMailstore` from src/command_test.go: GetMailbox always
returns the inbox with id 1; FirstUnseen 4, TotalMessages 8,
RecentMessages 4, NextUid 9. -/
def TestMailstore : Mailstore :=
  { GetMailbox := fun _ => .ok (some { Name := "inbox", Id := 1 })
    FirstUnseen := fun _ => .ok 4
    TotalMessages := fun _ => .ok 8
    RecentMessages := fun _ => .ok 4
    NextUid := fun _ => .ok 9 }

/-- A store whose lookup and first query fail, for the error paths. -/
def errorStore : Mailstore :=
  { GetMailbox := fun _ => .error "lookup failed"
    FirstUnseen := fun _ => .error "unavailable"
    TotalMessages := fun _ => .ok 8
    RecentMessages := fun _ => .ok 4
    NextUid := fun _ => .ok 9 }

/-- A store that knows no mailbox. -/
def absentStore : Mailstore :=
  { GetMailbox := fun _ => .ok none
    FirstUnseen := fun _ => .ok 4
    TotalMessages := fun _ => .ok 8
    RecentMessages := fun _ => .ok 4
    NextUid := fun _ => .ok 9 }

/-! ### Theorems about the session state machine -/

/-- C1: the claim says a successful `selectMailbox` returns true, sets
the session's selected mailbox AND transitions the session state to
selected.  Evaluating the code on a fresh session with a store that
knows the mailbox: the call returns true and records the mailbox, but
the state stays notAuthenticated — no assignment to the state field
exists in `selectMailbox`, so the claimed transition does not happen. -/
theorem selectMailbox_no_state_transition :
    (selectMailbox (createSession 1 { Store := TestMailstore }) "inbox").2
      = Except.ok true
    ∧ (selectMailbox (createSession 1 { Store := TestMailstore }) "inbox").1.mailbox
      = some { Name := "inbox", Id := 1 }
    ∧ (selectMailbox (createSession 1 { Store := TestMailstore }) "inbox").1.st
      = state.notAuthenticated
    ∧ state.notAuthenticated ≠ state.selected :=
  ⟨rfl, rfl, rfl, by decide⟩

/-- C3: the claimed invariant — a session reachable from `createSession`
by the session operations holds a mailbox iff its state is selected — is
violated by the code: after one successful `selectMailbox` on a fresh
session the mailbox field is set while the state is still
notAuthenticated. -/
theorem session_mailbox_invariant_violated :
    ((selectMailbox (createSession 1 { Store := TestMailstore }) "inbox").1.mailbox).isSome
      = true
    ∧ (selectMailbox (createSession 1 { Store := TestMailstore }) "inbox").1.st
      = state.notAuthenticated
    ∧ state.notAuthenticated ≠ state.selected :=
  ⟨rfl, rfl, by decide⟩

/-- C6: when the store's `GetMailbox` returns an error, `selectMailbox`
propagates that error and returns the session unchanged; when it returns
no mailbox and no error, `selectMailbox` returns false with no error and
the session unchanged. -/
theorem selectMailbox_error_or_absent (s : session) (name : String) (e : String) :
    (s.config.Store.GetMailbox name = Except.error e →
      selectMailbox s name = (s, Except.error e))
    ∧ (s.config.Store.GetMailbox name = Except.ok none →
      selectMailbox s name = (s, Except.ok false)) := by
  constructor
  · intro h
    simp [selectMailbox, h]
  · intro h
    simp [selectMailbox, h]

/-- C6 witness: the two branches at concrete stores. -/
theorem selectMailbox_error_or_absent_witness :
    selectMailbox (createSession 2 { Store := errorStore }) "x"
      = (createSession 2 { Store := errorStore }, Except.error "lookup failed")
    ∧ selectMailbox (createSession 3 { Store := absentStore }) "x"
      = (createSession 3 { Store := absentStore }, Except.ok false) :=
  ⟨(selectMailbox_error_or_absent (createSession 2 { Store := errorStore })
      "x" "lookup failed").1 rfl,
   (selectMailbox_error_or_absent (createSession 3 { Store := absentStore })
      "x" "").2 rfl⟩

/-- C4: when all four Mailstore queries succeed, `addMailboxInfo`
appends exactly five untagged lines, in the fixed order EXISTS, RECENT,
UNSEEN, UIDVALIDITY, UIDNEXT, with the source's literal formats, leaving
the tag and message untouched. -/
theorem addMailboxInfo_five_lines (s : session) (m : Mailbox) (resp : response)
    (f t r n : Int)
    (hm : s.mailbox = some m)
    (hf : s.config.Store.FirstUnseen m.Id = Except.ok f)
    (ht : s.config.Store.TotalMessages m.Id = Except.ok t)
    (hr : s.config.Store.RecentMessages m.Id = Except.ok r)
    (hn : s.config.Store.NextUid m.Id = Except.ok n) :
    addMailboxInfo s resp =
      some ({ tag := resp.tag, message := resp.message,
              untagged := resp.untagged ++
                [toString t ++ " EXISTS",
                 toString r ++ " RECENT",
                 "OK [UNSEEN " ++ toString f ++ "] Message " ++ toString f ++
                   " is first unseen",
                 "OK [UIDVALIDITY " ++ toString m.Id ++ "] UIDs valid",
                 "OK [UIDNEXT " ++ toString n ++ "] Predicted next UID"] },
            Except.ok ()) := by
  simp [addMailboxInfo, hm, hf, ht, hr, hn, response.extra, sprintIntStr]

/-- C4 witness: with the test store's values (firstUnseen 4, total 8,
recent 4, nextUid 9, mailbox id 1) the five lines are exactly the
spec's. -/
theorem addMailboxInfo_five_lines_witness :
    addMailboxInfo
      { id := 1, st := state.selected, mailbox := some { Name := "inbox", Id := 1 },
        config := { Store := TestMailstore } }
      { tag := "A1", message := "", untagged := [] }
    = some ({ tag := "A1", message := "",
              untagged := ["8 EXISTS", "4 RECENT",
                "OK [UNSEEN 4] Message 4 is first unseen",
                "OK [UIDVALIDITY 1] UIDs valid",
                "OK [UIDNEXT 9] Predicted next UID"] },
            Except.ok ()) := by
  have h := addMailboxInfo_five_lines
    { id := 1, st := state.selected, mailbox := some { Name := "inbox", Id := 1 },
      config := { Store := TestMailstore } }
    { Name := "inbox", Id := 1 }
    { tag := "A1", message := "", untagged := [] }
    4 8 4 9 rfl rfl rfl rfl rfl
  exact h

/-- C5: if any of the four Mailstore queries errs (each later query
reached only when the earlier ones succeeded), `addMailboxInfo` returns
that error with the response exactly as it was: no untagged line is
appended, never a partial subset. -/
theorem addMailboxInfo_all_or_nothing (s : session) (m : Mailbox)
    (resp : response) (e : String)
    (hm : s.mailbox = some m)
    (he : s.config.Store.FirstUnseen m.Id = Except.error e
      ∨ ((∃ f, s.config.Store.FirstUnseen m.Id = Except.ok f)
          ∧ s.config.Store.TotalMessages m.Id = Except.error e)
      ∨ ((∃ f, s.config.Store.FirstUnseen m.Id = Except.ok f)
          ∧ (∃ t, s.config.Store.TotalMessages m.Id = Except.ok t)
          ∧ s.config.Store.RecentMessages m.Id = Except.error e)
      ∨ ((∃ f, s.config.Store.FirstUnseen m.Id = Except.ok f)
          ∧ (∃ t, s.config.Store.TotalMessages m.Id = Except.ok t)
          ∧ (∃ r, s.config.Store.RecentMessages m.Id = Except.ok r)
          ∧ s.config.Store.NextUid m.Id = Except.error e)) :
    addMailboxInfo s resp = some (resp, Except.error e) := by
  rcases he with h1 | ⟨⟨f, hf⟩, h2⟩ | ⟨⟨f, hf⟩, ⟨t, ht⟩, h3⟩
    | ⟨⟨f, hf⟩, ⟨t, ht⟩, ⟨r, hr⟩, h4⟩ <;>
    simp [addMailboxInfo, hm, *]

/-- C5 witness: a store whose first query fails propagates that error
with the response unchanged. -/
theorem addMailboxInfo_all_or_nothing_witness :
    addMailboxInfo
      { id := 1, st := state.selected, mailbox := some { Name := "inbox", Id := 1 },
        config := { Store := errorStore } }
      { tag := "A2", message := "", untagged := [] }
    = some ({ tag := "A2", message := "", untagged := [] },
            Except.error "unavailable") :=
  addMailboxInfo_all_or_nothing
    { id := 1, st := state.selected, mailbox := some { Name := "inbox", Id := 1 },
      config := { Store := errorStore } }
    { Name := "inbox", Id := 1 }
    { tag := "A2", message := "", untagged := [] }
    "unavailable" rfl (Or.inl rfl)

example : firstToken .asTag (str2bytes "A00001 CAPABILITY\r\n")
    = some (⟨str2bytes "A00001", tokenType.stringTokenType⟩, space,
            str2bytes "CAPABILITY\r\n") := by decide

/-! ### Theorems about the lexer -/

/-- C2: evaluating the literal path on the spec's own test input
`\x7b11\x7d CRLF hello world`: because `consumeEol` stops AT the
linefeed (leaving it as the lookahead) and the body loop starts by
appending the lookahead, the token value is the linefeed followed by the
first ten body bytes — not the eleven bytes after the CRLF that the
claim (and the comment in src/lexer.go line 191) require. -/
theorem literal_value_off_by_one :
    firstToken .asAString (str2bytes "\x7b11\x7d\r\nhello world")
      = some (⟨lf :: str2bytes "hello worl", tokenType.stringTokenType⟩, 100, [])
    ∧ lf :: str2bytes "hello worl" ≠ str2bytes "hello world" :=
  ⟨by decide, by decide⟩

/-- C7: in quoted-string lexing a backslash appends the immediately
following byte whatever it is (first conjunct, for an arbitrary escaped
byte `c`), the closing quote is consumed but not part of the value, and
the two spec examples lex to `a"b` and `plain`. -/
theorem qstring_escape_verbatim :
    (∀ (c k : Nat) (ks : List Nat),
      firstToken .asAString ([doubleQuote, 97, backslash, c, doubleQuote, k] ++ ks)
        = some (⟨[97, c], tokenType.stringTokenType⟩, k, ks))
    ∧ firstToken .asAString (str2bytes "\"a\\\"b\"\r\n")
        = some (⟨str2bytes "a\"b", tokenType.stringTokenType⟩, cr, [lf])
    ∧ firstToken .asAString (str2bytes "\"plain\"\r\n")
        = some (⟨str2bytes "plain", tokenType.stringTokenType⟩, cr, [lf]) := by
  refine ⟨fun c k ks => ?_, by decide, by decide⟩
  simp [firstToken, next, skipSpace, consume, qstring.eq_def,
        space, lf, cr, doubleQuote, leftCurly, backslash]

/-- Helper for C8: a successful unquoted scan always returns a nonempty
token value, whatever buffer it started from. -/
theorem nonquoted_value_nonempty (exceptions : List Nat) :
    ∀ (rest : List Nat) (current : Nat) (buffer : List Nat)
      (tok : token) (c2 : Nat) (rs2 : List Nat),
      nonquoted exceptions current rest buffer = some (tok, c2, rs2) →
      tok.value ≠ [] := by
  intro rest
  induction rest with
  | nil =>
      intro current buffer tok c2 rs2 h
      by_cases hc : space < current ∧ current ∉ exceptions ∧ current < 0x7f
      · simp [nonquoted, hc] at h
      · by_cases hb : buffer = []
        · simp [nonquoted, hc, hb] at h
        · simp only [nonquoted, if_neg hc, if_neg hb, Option.some.injEq,
                     Prod.mk.injEq] at h
          obtain ⟨htok, -, -⟩ := h
          subst htok
          simpa using hb
  | cons b rs ih =>
      intro current buffer tok c2 rs2 h
      by_cases hc : space < current ∧ current ∉ exceptions ∧ current < 0x7f
      · simp only [nonquoted, if_pos hc] at h
        exact ih b (buffer ++ [current]) tok c2 rs2 h
      · by_cases hb : buffer = []
        · simp [nonquoted, hc, hb] at h
        · simp only [nonquoted, if_neg hc, if_neg hb, Option.some.injEq,
                     Prod.mk.injEq] at h
          obtain ⟨htok, -, -⟩ := h
          subst htok
          simpa using hb

/-- C8: in every mode, an unquoted scan whose starting byte is at most
space, at least 0x7f, or in the mode's exception set is a parse error;
and a scan that does return a token never returns an empty value. -/
theorem nonquoted_empty_rejection :
    (∀ (flag : unquotedLexerFlag) (current : Nat) (rest : List Nat),
      current ≤ space ∨ 0x7f ≤ current ∨ current ∈ exceptionsOf flag →
      nonquoted (exceptionsOf flag) current rest [] = none)
    ∧ (∀ (flag : unquotedLexerFlag) (current : Nat) (rest : List Nat)
        (tok : token) (c2 : Nat) (rs2 : List Nat),
        nonquoted (exceptionsOf flag) current rest [] = some (tok, c2, rs2) →
        tok.value ≠ []) := by
  constructor
  · intro flag current rest h
    have hc : ¬(space < current ∧ current ∉ exceptionsOf flag ∧ current < 0x7f) := by
      rintro ⟨h1, h2, h3⟩
      rcases h with h | h | h
      · omega
      · omega
      · exact h2 h
    cases rest with
    | nil => simp [nonquoted, hc]
    | cons b rs => simp [nonquoted, hc]
  · intro flag current rest tok c2 rs2 h
    exact nonquoted_value_nonempty (exceptionsOf flag) rest current [] tok c2 rs2 h

/-- C8 witness: in tag mode a plus as the first byte is rejected, and a
concrete successful astring scan has a nonempty value. -/
theorem nonquoted_empty_rejection_witness :
    nonquoted (exceptionsOf .asTag) plus [65] [] = none
    ∧ (token.mk [65] tokenType.stringTokenType).value ≠ [] :=
  ⟨nonquoted_empty_rejection.1 .asTag plus [65]
     (Or.inr (Or.inr (by decide))),
   nonquoted_empty_rejection.2 .asAString 65 [space]
     ⟨[65], tokenType.stringTokenType⟩ space [] (by decide)⟩

/-- Helper for C9: an unquoted scan over a run of in-charset bytes
followed by a terminating byte returns the buffer extended by the whole
run, with the terminator as the new lookahead. -/
theorem nonquoted_run (exc : List Nat) :
    ∀ (run : List Nat) (c stp : Nat) (rest buffer : List Nat),
      space < c ∧ c ∉ exc ∧ c < 0x7f →
      (∀ b ∈ run, space < b ∧ b ∉ exc ∧ b < 0x7f) →
      ¬(space < stp ∧ stp ∉ exc ∧ stp < 0x7f) →
      nonquoted exc c (run ++ stp :: rest) buffer
        = some (⟨buffer ++ c :: run, tokenType.stringTokenType⟩, stp, rest) := by
  intro run
  induction run with
  | nil =>
      intro c stp rest buffer hc _ hstp
      cases rest with
      | nil => simp [nonquoted, hc, hstp]
      | cons b2 rs2 => simp [nonquoted, hc, hstp]
  | cons b bs ih =>
      intro c stp rest buffer hc hrun hstp
      have hb : space < b ∧ b ∉ exc ∧ b < 0x7f := hrun b (by simp)
      have hbs : ∀ x ∈ bs, space < x ∧ x ∉ exc ∧ x < 0x7f := fun x hx =>
        hrun x (by simp [hx])
      simp only [List.cons_append, nonquoted, if_pos hc, List.append_eq]
      rw [ih b stp rest (buffer ++ [c]) hb hbs hstp]
      simp

/-- C9: in asAny mode the exception set is empty, so when the first
non-skipped byte is not CR, double quote or opening brace, `next`
returns the maximal run of bytes strictly between 0x20 and 0x7f — a run
that may contain any byte in that range, the grammar-special ones
included. -/
theorem any_mode_maximal_run (c stp : Nat) (run rest : List Nat)
    (hc1 : space < c) (hc2 : c < 0x7f)
    (hcq : c ≠ doubleQuote) (hcb : c ≠ leftCurly)
    (hrun : ∀ b ∈ run, space < b ∧ b < 0x7f)
    (hstp : ¬(space < stp ∧ stp < 0x7f)) :
    next .asAny space (c :: (run ++ stp :: rest))
      = some (⟨c :: run, tokenType.stringTokenType⟩, stp, rest) := by
  have hcr : c ≠ cr := by
    have h32 : (0x20 : Nat) < c := by simpa [space] using hc1
    simp only [cr]
    omega
  have h := nonquoted_run [] run c stp rest []
    ⟨hc1, by simp, hc2⟩
    (fun b hb => ⟨(hrun b hb).1, by simp, (hrun b hb).2⟩)
    (by simpa using hstp)
  simp only [List.nil_append] at h
  simp [next, skipSpace, consume, any, hcr, hcq, hcb, h]

/-- C9 witness: the token `()]%*\` followed by both curly braces — every
grammar-special byte the other modes except — is lexed whole in asAny
mode, terminated by the CR. -/
theorem any_mode_maximal_run_witness :
    next .asAny space [40, 41, 93, 37, 42, 92, 123, 125, 13, 10]
      = some (⟨[40, 41, 93, 37, 42, 92, 123, 125], tokenType.stringTokenType⟩,
              13, [10]) := by
  have h := any_mode_maximal_run 40 13 [41, 93, 37, 42, 92, 123, 125] [10]
    (by decide) (by decide) (by decide) (by decide) (by decide) (by decide)
  simpa using h

/-- Helper for C10: the digit loop of `literal` stops at once when the
lookahead byte is the right curly. -/
theorem literalDigits_stop (body acc : List Nat) :
    literalDigits rightCurly body acc = some (acc, rightCurly, body) := by
  cases body with
  | nil => simp [literalDigits]
  | cons b rs => simp [literalDigits]

/-- Helper for C10: the digit loop of `literal` collects a whole digit
run and stops at the closing right curly. -/
theorem literalDigits_run :
    ∀ (ds : List Nat) (c : Nat) (acc body : List Nat),
      zero ≤ c → c ≤ nine → (∀ d ∈ ds, zero ≤ d ∧ d ≤ nine) →
      literalDigits c (ds ++ rightCurly :: body) acc
        = some (acc ++ c :: ds, rightCurly, body) := by
  intro ds
  induction ds with
  | nil =>
      intro c acc body h0 h9 _
      have hne : c ≠ rightCurly := by
        simp only [nine] at h9
        simp only [rightCurly]
        omega
      have hd : ¬(c < zero ∨ nine < c) := by omega
      simp [literalDigits, hne, hd, literalDigits_stop]
  | cons d ds ih =>
      intro c acc body h0 h9 hds
      have hne : c ≠ rightCurly := by
        simp only [nine] at h9
        simp only [rightCurly]
        omega
      have hd : ¬(c < zero ∨ nine < c) := by omega
      have h1 := hds d (by simp)
      have h2 : ∀ x ∈ ds, zero ≤ x ∧ x ≤ nine := fun x hx => hds x (by simp [hx])
      simp only [List.cons_append, literalDigits, if_neg hne, if_neg hd,
                 List.append_eq]
      rw [ih d (acc ++ [c]) body h1.1 h1.2 h2]
      simp

/-- C10: the literal length is parsed as a 32-bit signed integer: an
empty digit run or one denoting a value above the int32 maximum is a
parse error, whatever bytes follow the closing brace — the literal body
is never read. -/
theorem literal_length_int32 (flag : unquotedLexerFlag) (ds body : List Nat)
    (hd : ∀ d ∈ ds, zero ≤ d ∧ d ≤ nine)
    (hbad : ds = [] ∨ 2 ^ 31 - 1 < digitsToNat ds) :
    next flag space (leftCurly :: (ds ++ rightCurly :: body)) = none := by
  cases ds with
  | nil =>
      simp [next, skipSpace, consume, literal, literalDigits_stop, parseInt32,
            space, lf, cr, doubleQuote, leftCurly]
  | cons d ds' =>
      have h1 := hd d (by simp)
      have h2 : ∀ x ∈ ds', zero ≤ x ∧ x ≤ nine := fun x hx => hd x (by simp [hx])
      have hbig : 2 ^ 31 - 1 < digitsToNat (d :: ds') := by
        rcases hbad with h | h
        · exact absurd h (by simp)
        · exact h
      have hle : ¬(digitsToNat (d :: ds') ≤ 2147483647) := by
        norm_num at hbig
        omega
      have hrun := literalDigits_run ds' d [] body h1.1 h1.2 h2
      simp [next, skipSpace, consume, literal, hrun, parseInt32, hle,
            space, lf, cr, doubleQuote, leftCurly]

/-- C10 witness: a ten-nines length (9999999999 exceeds the int32
maximum 2147483647) and an empty length both fail before the body. -/
theorem literal_length_int32_witness :
    next .asAString space
      (leftCurly :: (str2bytes "9999999999" ++ rightCurly :: [cr, lf])) = none
    ∧ next .asAString space (leftCurly :: ([] ++ rightCurly :: [cr, lf])) = none :=
  ⟨literal_length_int32 .asAString (str2bytes "9999999999") [cr, lf] (by decide)
     (Or.inr (by decide)),
   literal_length_int32 .asAString [] [cr, lf] (by decide) (Or.inl rfl)⟩

end Imapsrv
